import Mathlib

/-!
Verification of the `go-s3` client wrapper (`src/client.go`).

The Go client wraps an S3-compatible SDK.  Every network call
(`PutObject`, `HeadObject`, `ListObjects`, `PresignGetObject`,
config loading) is modelled by an oracle argument: a value or a
function producing `Except Err _`, standing for the `(result, error)`
pair the SDK call returns.  The wrapper logic itself — credential
validation, key construction, URL normalisation, the search loop of
`FindKeyByPresignedURL`, and the fan-out/fan-in collector of
`GetObjects` — is translated function by function from the source.
For `GetObjects` the concurrent completion order is made explicit: the
goroutines' `(index, url, err)` records reach the collector as a list
`arrival` that is a permutation of the canonical (listing-order)
records, and the collector loop is a fold over that list.
-/

namespace GoS3

/-- Errors.  `msg` models `errors.New` / `fmt.Errorf` without `%w`,
`wrap` models `fmt.Errorf("...: %w", err)`, and `sdk` stands for the
opaque errors produced by the underlying AWS SDK calls. -/
inductive Err where
  | msg (s : String) : Err
  | wrap (s : String) (e : Err) : Err
  | sdk (n : Nat) : Err
deriving DecidableEq

instance {ε α : Type} [DecidableEq ε] [DecidableEq α] : DecidableEq (Except ε α) :=
  fun a b =>
    match a, b with
    | .ok x, .ok y =>
      if h : x = y then .isTrue (by rw [h]) else .isFalse (fun hc => h (Except.ok.inj hc))
    | .error x, .error y =>
      if h : x = y then .isTrue (by rw [h]) else .isFalse (fun hc => h (Except.error.inj hc))
    | .ok _, .error _ => .isFalse (fun hc => Except.noConfusion hc)
    | .error _, .ok _ => .isFalse (fun hc => Except.noConfusion hc)

/-- `Config`: endpoint, access key ID, secret access key, bucket name,
region.  The struct declaration itself is outside `client.go` (it is
read there as `cfg.AccessKeyID`, `cfg.SecretAccessKey`, `cfg.Region`,
`cfg.Endpoint`, `cfg.BucketName`); the field list follows those uses
and the spec's data model. -/
structure Config where
  endpoint : String
  accessKeyID : String
  secretAccessKey : String
  bucketName : String
  region : String
deriving DecidableEq

/-- `Client`: the bucket and endpoint kept by the Go struct.  The SDK
handle is replaced by the per-call oracles. -/
structure Client where
  bucket : String
  endpoint : String
deriving DecidableEq

/-- The error of `errors.New("S3 credentials not configured")`. -/
def credsErr : Err := Err.msg "S3 credentials not configured"

/-- `New` (client.go:25-52).  `loadCfg` is the outcome of
`awsconfig.LoadDefaultConfig`. -/
def new (cfg : Config) (loadCfg : Except Err Unit) : Except Err Client :=
  if cfg.accessKeyID = "" ∨ cfg.secretAccessKey = "" then
    .error credsErr
  else
    match loadCfg with
    | .error e => .error (Err.wrap "failed to load AWS config" e)
    | .ok _ => .ok { bucket := cfg.bucketName, endpoint := cfg.endpoint }

/-- One Go `time.Minute`, in nanoseconds (`time.Duration` units). -/
def minuteNs : Nat := 60 * 1000000000

/-- The `15*time.Minute` constant used at every internal presign call
site. -/
def fifteenMinutes : Nat := 15 * minuteNs

/-- `GetPresignedURL` (client.go:84-96).  `presign` is the outcome of
`PresignGetObject` as a function of the key and the expiration that
the options callback sets; on failure Go returns `""` together with
the wrapped error. -/
def getPresignedURL (presign : String → Nat → Except Err String)
    (key : String) (expiration : Nat) : Except Err String :=
  match presign key expiration with
  | .error e => .error (Err.wrap "failed to generate presigned URL" e)
  | .ok url => .ok url

/-- `UploadFile` (client.go:54-71).  `put` is the outcome of
`PutObject` as a function of the object key (body and content type do
not influence the wrapper logic). -/
def uploadFile (put : String → Except Err Unit)
    (presign : String → Nat → Except Err String)
    (objectID key : String) : Except Err String :=
  let objectKey := objectID ++ "/" ++ key
  match put objectKey with
  | .error e => .error (Err.wrap "failed to upload file to S3" e)
  | .ok _ =>
    match getPresignedURL presign objectKey fifteenMinutes with
    | .error e => .error (Err.wrap "failed to generate presigned URL" e)
    | .ok presignedURL => .ok presignedURL

/-- `FileExists` (client.go:98-107).  `head` is the outcome of
`HeadObject`. -/
def fileExists (head : Except Err Unit) : Bool × Option Err :=
  match head with
  | .error _ => (false, none)
  | .ok _ => (true, none)

/-- The byte loop of `normalizeURL` (client.go:132-139): return
`url[:i]` at the first `?` or `#`.  Both characters are ASCII, so the
byte loop agrees with this character-level recursion on UTF-8 input. -/
def normalizeChars : List Char → List Char
  | [] => []
  | c :: rest => if c = '?' ∨ c = '#' then [] else c :: normalizeChars rest

/-- `normalizeURL` on strings. -/
def normalizeURL (url : String) : String := ⟨normalizeChars url.data⟩

/-- The error of `fmt.Errorf("object not found for the given presigned URL")`. -/
def notFoundErr : Err := Err.msg "object not found for the given presigned URL"

/-- The `for _, obj := range objects.Contents` loop of
`FindKeyByPresignedURL` (client.go:119-127): keys whose presign fails
are skipped with `continue`. -/
def findKeyLoop (presign : String → Nat → Except Err String)
    (normalizedTarget : String) : List String → Except Err String
  | [] => .error notFoundErr
  | key :: rest =>
    match getPresignedURL presign key fifteenMinutes with
    | .error _ => findKeyLoop presign normalizedTarget rest
    | .ok objPresignedURL =>
      if normalizeURL objPresignedURL = normalizedTarget then .ok key
      else findKeyLoop presign normalizedTarget rest

/-- `FindKeyByPresignedURL` (client.go:109-130).  `listRes` is the
outcome of `ListObjects` for the searched prefix, reduced to the list
of object keys (`objects.Contents` with `*obj.Key`). -/
def findKeyByPresignedURL (listRes : Except Err (List String))
    (presign : String → Nat → Except Err String)
    (presignedURL : String) : Except Err String :=
  match listRes with
  | .error e => .error (Err.wrap "failed to list objects" e)
  | .ok keys => findKeyLoop presign (normalizeURL presignedURL) keys

/-- The record sent over `resultsChan` (client.go:141-145). -/
structure PResult where
  index : Nat
  url : String
  err : Option Err
deriving DecidableEq

/-- The body of the goroutine launched for index `idx` and key `key`
(client.go:165-173): on a failed presign Go's multiple return gives
`presignedURL = ""` alongside the error. -/
def mkResult (presign : String → Nat → Except Err String)
    (idx : Nat) (key : String) : PResult :=
  match getPresignedURL presign key fifteenMinutes with
  | .ok u => { index := idx, url := u, err := none }
  | .error e => { index := idx, url := "", err := some e }

/-- The listing-order records produced by `for i, object := range
objects.Contents` starting at index `i`. -/
def canonResults (presign : String → Nat → Except Err String) :
    Nat → List String → List PResult
  | _, [] => []
  | i, key :: rest => mkResult presign i key :: canonResults presign (i + 1) rest

/-- The collector's loop state (client.go:181-183): the pre-sized
output slice, the error counter and the first error seen. -/
structure CollectState where
  urls : List String
  errorCount : Nat
  firstError : Option Err
deriving DecidableEq

/-- One iteration of `for result := range resultsChan`
(client.go:185-195). -/
def collectStep (s : CollectState) (r : PResult) : CollectState :=
  match r.err with
  | some e =>
    { s with
      errorCount := s.errorCount + 1,
      firstError := match s.firstError with | none => some e | some e0 => some e0 }
  | none => { s with urls := s.urls.set r.index r.url }

/-- `make([]string, len(objects.Contents))`, `errorCount := 0`,
`var firstError error`. -/
def initState (n : Nat) : CollectState :=
  { urls := List.replicate n "", errorCount := 0, firstError := none }

/-- `GetObjects` (client.go:147-213).  `listRes` is the `ListObjects`
outcome reduced to the object keys; `arrival` is the order in which
the goroutines' records are drained from `resultsChan` — the theorems
constrain it to a permutation of `canonResults presign 0 keys`.  The
`Err.msg "nil"` default is Go's wrapping of a nil `firstError`; it is
unreachable whenever `arrival` covers all the goroutines, because
`errorCount = len(keys) > 0` then forces a recorded first error. -/
def getObjects (listRes : Except Err (List String))
    (arrival : List PResult) : Except Err (List String) :=
  match listRes with
  | .error e => .error (Err.wrap "failed to list objects" e)
  | .ok keys =>
    if keys.length = 0 then .ok []
    else
      let s := arrival.foldl collectStep (initState keys.length)
      if s.errorCount = keys.length then
        .error (Err.wrap "failed to get presigned URLs" (s.firstError.getD (Err.msg "nil")))
      else if s.errorCount > 0 then
        .ok (s.urls.filter (fun u => u != ""))
      else
        .ok s.urls

/-- The URL a goroutine stores for key `key`: the presigned URL on
success, Go's zero value `""` on failure. -/
def urlOf (presign : String → Nat → Except Err String) (key : String) : String :=
  match getPresignedURL presign key fifteenMinutes with
  | .ok u => u
  | .error _ => ""

/-- The error a goroutine stores for key `key`. -/
def errOf (presign : String → Nat → Except Err String) (key : String) : Option Err :=
  match getPresignedURL presign key fifteenMinutes with
  | .ok _ => none
  | .error e => some e

/-- Whether the presign call for `key` fails. -/
def presignFails (presign : String → Nat → Except Err String) (key : String) : Bool :=
  match getPresignedURL presign key fifteenMinutes with
  | .ok _ => false
  | .error _ => true

/-- The successfully produced URLs, in listing order. -/
def successURLs (presign : String → Nat → Except Err String)
    (keys : List String) : List String :=
  keys.filterMap fun key =>
    match getPresignedURL presign key fifteenMinutes with
    | .ok u => some u
    | .error _ => none

/- ### Concrete oracles used by witnesses and counterexamples -/

/-- A `PutObject` oracle that always succeeds. -/
def putOk : String → Except Err Unit := fun _ => .ok ()

/-- A presign oracle returning the key itself as the URL. -/
def presignEcho : String → Nat → Except Err String := fun key _ => .ok key

/-- A presign oracle whose URL records whether the requested
expiration was the 15-minute constant. -/
def presignStamp : String → Nat → Except Err String := fun key e =>
  .ok ((if e = fifteenMinutes then "15m:" else "other:") ++ key)

/-- A presign oracle that always answers as `presignStamp` does at the
15-minute expiration. -/
def presignFifteen : String → Nat → Except Err String := fun key _ =>
  .ok ("15m:" ++ key)

/-- A presign oracle producing a host/key URL with a query string. -/
def presignHost : String → Nat → Except Err String := fun key _ =>
  .ok ("https://h/" ++ key ++ "?sig=9")

/-- A presign oracle that always fails. -/
def presignDown : String → Nat → Except Err String := fun _ _ =>
  .error (Err.sdk 0)

/-- A presign oracle that fails exactly on key `"b"`. -/
def presignNoB : String → Nat → Except Err String := fun key _ =>
  if key = "b" then .error (Err.sdk 1) else .ok ("https://h/" ++ key)

/- ### Claim C4 -/

theorem normalizeChars_of_clean (l : List Char)
    (h : ∀ c ∈ l, ¬(c = '?' ∨ c = '#')) : normalizeChars l = l := by
  induction l with
  | nil => rfl
  | cons c rest ih =>
    have hc := h c (List.mem_cons_self c rest)
    simp only [normalizeChars, if_neg hc]
    exact congrArg (c :: ·) (ih fun x hx => h x (List.mem_cons_of_mem c hx))

theorem normalizeChars_eq_take (l : List Char) (i : Nat)
    (hi : l[i]? = some '?' ∨ l[i]? = some '#')
    (hmin : ∀ j < i, ¬(l[j]? = some '?' ∨ l[j]? = some '#')) :
    normalizeChars l = l.take i := by
  induction l generalizing i with
  | nil => simp at hi
  | cons c rest ih =>
    cases i with
    | zero =>
      simp only [List.getElem?_cons_zero, Option.some.injEq] at hi
      simp [normalizeChars, hi]
    | succ i0 =>
      have hc : ¬(c = '?' ∨ c = '#') := by
        have := hmin 0 (Nat.succ_pos i0)
        simpa using this
      have hi0 : rest[i0]? = some '?' ∨ rest[i0]? = some '#' := by
        simpa using hi
      have hmin0 : ∀ j < i0, ¬(rest[j]? = some '?' ∨ rest[j]? = some '#') := by
        intro j hlt
        have := hmin (j + 1) (Nat.succ_lt_succ hlt)
        simpa using this
      simp only [normalizeChars, if_neg hc, List.take_succ_cons]
      exact congrArg (c :: ·) (ih i0 hi0 hmin0)

/-- Claim C4: `normalizeURL u` equals `u` when `u` has neither `?` nor
`#`, and otherwise equals the prefix of `u` strictly before the first
occurrence of either character; in particular
`normalizeURL "https://h/k?X=1#frag" = "https://h/k"`. -/
theorem normalizeURL_spec (u : String) :
    ((∀ c ∈ u.data, ¬(c = '?' ∨ c = '#')) → normalizeURL u = u) ∧
    (∀ i : Nat,
      (u.data[i]? = some '?' ∨ u.data[i]? = some '#') →
      (∀ j < i, ¬(u.data[j]? = some '?' ∨ u.data[j]? = some '#')) →
      normalizeURL u = ⟨u.data.take i⟩) ∧
    normalizeURL "https://h/k?X=1#frag" = "https://h/k" := by
  refine ⟨fun h => ?_, fun i hi hmin => ?_, by decide⟩
  · show String.mk (normalizeChars u.data) = u
    rw [normalizeChars_of_clean u.data h]
  · show String.mk (normalizeChars u.data) = String.mk (u.data.take i)
    rw [normalizeChars_eq_take u.data i hi hmin]

/-- Witness for C4 at concrete inputs: `"abc"` is unchanged, and
`"ab#c?d"` truncates at position 2. -/
theorem normalizeURL_spec_witness :
    normalizeURL "abc" = "abc" ∧ normalizeURL "ab#c?d" = "ab" := by
  constructor
  · exact (normalizeURL_spec "abc").1 (by decide)
  · have := (normalizeURL_spec "ab#c?d").2.1 2 (by decide) (by decide)
    simpa using this

/- ### Claim C6 -/

/-- Claim C6: `FileExists` never returns a non-nil error: `(true, nil)`
when the head call succeeds and `(false, nil)` for every failure. -/
theorem fileExists_swallows_errors (head : Except Err Unit) :
    (fileExists head).2 = none ∧
    (head = .ok () → fileExists head = (true, none)) ∧
    (∀ e, head = .error e → fileExists head = (false, none)) := by
  refine ⟨?_, fun h => by rw [h]; rfl, fun e h => by rw [h]; rfl⟩
  cases head <;> rfl

/-- Witness for C6: a transport-style SDK failure and a success. -/
theorem fileExists_swallows_errors_witness :
    fileExists (.error (Err.sdk 7)) = (false, none) ∧
    fileExists (.ok ()) = (true, none) :=
  ⟨(fileExists_swallows_errors (.error (Err.sdk 7))).2.2 (Err.sdk 7) rfl,
   (fileExists_swallows_errors (.ok ())).2.1 rfl⟩

/- ### Claim C7 -/

/-- Claim C7: `New` fails with the credentials error exactly when the
access key or the secret key is empty, for every bucket, region,
endpoint and every outcome of the SDK config load. -/
theorem new_credentials_check (cfg : Config) (loadCfg : Except Err Unit) :
    new cfg loadCfg = .error credsErr ↔
      (cfg.accessKeyID = "" ∨ cfg.secretAccessKey = "") := by
  unfold new
  by_cases h : cfg.accessKeyID = "" ∨ cfg.secretAccessKey = ""
  · simp [h]
  · simp only [if_neg h]
    constructor
    · intro hc
      cases loadCfg with
      | error e => simp [credsErr] at hc
      | ok u => simp at hc
    · intro hc
      exact absurd hc h

/- ### Claim C5 -/

/-- Claim C5: `UploadFile` issues its put with the composite key
`objectID ++ "/" ++ key`, and a successful result is the presigned URL
generated for that same composite key; moreover the outcome depends on
the oracles only at that composite key. -/
theorem uploadFile_composite_key (put : String → Except Err Unit)
    (presign : String → Nat → Except Err String) (objectID key url : String) :
    (uploadFile put presign objectID key = .ok url →
      put (objectID ++ "/" ++ key) = .ok () ∧
      presign (objectID ++ "/" ++ key) fifteenMinutes = .ok url) ∧
    (∀ (put2 : String → Except Err Unit) (presign2 : String → Nat → Except Err String),
      put (objectID ++ "/" ++ key) = put2 (objectID ++ "/" ++ key) →
      presign (objectID ++ "/" ++ key) fifteenMinutes =
        presign2 (objectID ++ "/" ++ key) fifteenMinutes →
      uploadFile put presign objectID key = uploadFile put2 presign2 objectID key) := by
  constructor
  · intro h
    simp only [uploadFile, getPresignedURL] at h
    rcases hput : put (objectID ++ "/" ++ key) with e | u
    · rw [hput] at h; simp at h
    · rw [hput] at h
      cases u
      rcases hps : presign (objectID ++ "/" ++ key) fifteenMinutes with e2 | u2
      · rw [hps] at h; simp at h
      · rw [hps] at h
        simp only [Except.ok.injEq] at h
        subst h
        exact ⟨rfl, rfl⟩
  · intro put2 presign2 h1 h2
    simp only [uploadFile, getPresignedURL]
    rw [← h1, ← h2]

/-- Witness for C5: with an always-succeeding put and an echoing
presigner, uploading `("obj", "f")` touches exactly the key
`"obj/f"`. -/
theorem uploadFile_composite_key_witness :
    putOk ("obj" ++ "/" ++ "f") = .ok () ∧
    presignEcho ("obj" ++ "/" ++ "f") fifteenMinutes = .ok "obj/f" :=
  (uploadFile_composite_key putOk presignEcho "obj" "f" "obj/f").1 rfl

/- ### Claim C9 -/

/-- Counterexample to C9 as stated: the public `GetPresignedURL`
accepts a caller-chosen expiration and forwards it to the signer, so
the expiration is configurable per call in the public surface — a
30-minute request reaches the signer with 30 minutes and yields a URL
different from the 15-minute one. -/
theorem getPresignedURL_expiration_configurable :
    getPresignedURL presignStamp "k" (30 * minuteNs) = .ok "other:k" ∧
    getPresignedURL presignStamp "k" (30 * minuteNs) ≠
      getPresignedURL presignStamp "k" fifteenMinutes := by
  constructor
  · have h30 : (30 * minuteNs = fifteenMinutes) = False := by
      simp [minuteNs, fifteenMinutes]
    simp [getPresignedURL, presignStamp, h30]
  · decide

/-- Claim C9 (amended): every internal presign call site
(`UploadFile`, `FindKeyByPresignedURL`, the `GetObjects` goroutines)
uses the hardcoded 15-minute expiration — signers agreeing at 15
minutes are indistinguishable there — while the public
`GetPresignedURL` forwards the caller-supplied expiration to the
signer. -/
theorem presign_expiration_policy :
    (∀ (p : String → Nat → Except Err String) (k : String) (e : Nat) (u : String),
      p k e = .ok u → getPresignedURL p k e = .ok u) ∧
    (∀ (p1 p2 : String → Nat → Except Err String) (put : String → Except Err Unit)
      (objectID key : String),
      (∀ s, p1 s fifteenMinutes = p2 s fifteenMinutes) →
      uploadFile put p1 objectID key = uploadFile put p2 objectID key) ∧
    (∀ (p1 p2 : String → Nat → Except Err String) (target : String)
      (keys : List String),
      (∀ s, p1 s fifteenMinutes = p2 s fifteenMinutes) →
      findKeyByPresignedURL (.ok keys) p1 target =
        findKeyByPresignedURL (.ok keys) p2 target) ∧
    (∀ (p1 p2 : String → Nat → Except Err String),
      (∀ s, p1 s fifteenMinutes = p2 s fifteenMinutes) →
      ∀ (i : Nat) (keys : List String),
        canonResults p1 i keys = canonResults p2 i keys) := by
  refine ⟨fun p k e u h => ?_, fun p1 p2 put objectID key h => ?_,
    fun p1 p2 target keys h => ?_, fun p1 p2 h i keys => ?_⟩
  · simp [getPresignedURL, h]
  · simp only [uploadFile, getPresignedURL]
    rw [h]
  · simp only [findKeyByPresignedURL]
    induction keys with
    | nil => rfl
    | cons k rest ih =>
      simp only [findKeyLoop, getPresignedURL]
      rw [h k, ih]
  · induction keys generalizing i with
    | nil => rfl
    | cons k rest ih =>
      simp only [canonResults, mkResult, getPresignedURL]
      rw [h k, ih]

/-- Witness for C9's amended theorem: `presignStamp` and
`presignFifteen` agree at the 15-minute expiration, so `UploadFile`
cannot tell them apart. -/
theorem presign_expiration_policy_witness :
    uploadFile putOk presignStamp "o" "f" = uploadFile putOk presignFifteen "o" "f" :=
  presign_expiration_policy.2.1 presignStamp presignFifteen putOk "o" "f"
    (fun s => by simp [presignStamp, presignFifteen])

/- ### Claim C3 -/

theorem findKeyLoop_eq_find (presign : String → Nat → Except Err String)
    (t : String) (keys : List String) :
    findKeyLoop presign t keys =
      match keys.find? (fun k =>
          match getPresignedURL presign k fifteenMinutes with
          | .ok u => normalizeURL u == t
          | .error _ => false) with
      | some k => .ok k
      | none => .error notFoundErr := by
  induction keys with
  | nil => rfl
  | cons k rest ih =>
    simp only [findKeyLoop, List.find?_cons]
    rcases hps : getPresignedURL presign k fifteenMinutes with e | u
    · simpa using ih
    · by_cases hmatch : normalizeURL u = t
      · simp [hmatch]
      · have : (normalizeURL u == t) = false := by
          simpa using hmatch
        simp only [this, if_neg hmatch]
        exact ih

/-- Claim C3: `FindKeyByPresignedURL` propagates listing failures
(wrapped), otherwise returns the first listed key whose freshly
presigned URL matches the target after normalisation, and fails with
the distinct not-found error when the listing is empty or nothing
matches. -/
theorem findKeyByPresignedURL_spec (presign : String → Nat → Except Err String)
    (listRes : Except Err (List String)) (target : String) :
    (∀ e, listRes = .error e →
      findKeyByPresignedURL listRes presign target =
        .error (Err.wrap "failed to list objects" e)) ∧
    (∀ keys, listRes = .ok keys →
      findKeyByPresignedURL listRes presign target =
        match keys.find? (fun k =>
            match getPresignedURL presign k fifteenMinutes with
            | .ok u => normalizeURL u == normalizeURL target
            | .error _ => false) with
        | some k => .ok k
        | none => .error notFoundErr) ∧
    findKeyByPresignedURL (.ok []) presign target = .error notFoundErr ∧
    (∀ s e, notFoundErr ≠ Err.wrap s e) := by
  refine ⟨fun e h => by rw [h]; rfl, fun keys h => ?_, rfl, fun s e => by simp [notFoundErr]⟩
  rw [h]
  show findKeyLoop presign (normalizeURL target) keys = _
  exact findKeyLoop_eq_find presign (normalizeURL target) keys

/-- Witness for C3: with listing `["a", "b"]` and host-style presigned
URLs, searching for `"https://h/b?sig=2"` finds key `"b"` — the
signatures differ but the normalized paths agree. -/
theorem findKeyByPresignedURL_spec_witness :
    findKeyByPresignedURL (.ok ["a", "b"]) presignHost "https://h/b?sig=2" = .ok "b" := by
  have h := (findKeyByPresignedURL_spec presignHost (.ok ["a", "b"])
    "https://h/b?sig=2").2.1 ["a", "b"] rfl
  rw [h]
  decide

/- ### Claim C10 -/

/-- Claim C10: the search loop silently skips a key whose presign
fails and continues with the rest; consequently, when no key yields a
successful matching URL — in particular when presigning fails for the
key that would have matched — the operation reports the not-found
error instead of a signing error. -/
theorem findKey_skips_failed_presigns (presign : String → Nat → Except Err String)
    (t key : String) (rest : List String) (keys : List String) :
    (∀ e, presign key fifteenMinutes = .error e →
      findKeyLoop presign t (key :: rest) = findKeyLoop presign t rest) ∧
    ((∀ k ∈ keys, ∀ u, getPresignedURL presign k fifteenMinutes = .ok u →
        normalizeURL u ≠ t) →
      findKeyLoop presign t keys = .error notFoundErr) := by
  constructor
  · intro e he
    simp [findKeyLoop, getPresignedURL, he]
  · intro h
    induction keys with
    | nil => rfl
    | cons k krest ih =>
      have ih2 := ih fun x hx => h x (List.mem_cons_of_mem k hx)
      simp only [findKeyLoop]
      rcases hps : getPresignedURL presign k fifteenMinutes with e | u
      · exact ih2
      · have hne : normalizeURL u ≠ t := h k (List.mem_cons_self k krest) u hps
        show (if normalizeURL u = t then Except.ok k else findKeyLoop presign t krest) =
          Except.error notFoundErr
        rw [if_neg hne]
        exact ih2

/-- Witness for C10: with an always-failing signer, the key `"a"` is
skipped and the two-element listing ends in the not-found error, even
though `"a"` is the key the target URL was generated from. -/
theorem findKey_skips_failed_presigns_witness :
    findKeyLoop presignDown "https://h/a" ("a" :: ["b"]) =
      findKeyLoop presignDown "https://h/a" ["b"] ∧
    findKeyLoop presignDown "https://h/a" ["a", "b"] = .error notFoundErr := by
  constructor
  · exact (findKey_skips_failed_presigns presignDown "https://h/a" "a" ["b"] []).1
      (Err.sdk 0) rfl
  · exact (findKey_skips_failed_presigns presignDown "https://h/a" "a" [] ["a", "b"]).2
      (fun k hk u hu => by simp [getPresignedURL, presignDown] at hu)

/- ### Collector lemmas for GetObjects -/

theorem mkResult_eq (presign : String → Nat → Except Err String) (i : Nat) (k : String) :
    mkResult presign i k =
      { index := i, url := urlOf presign k, err := errOf presign k } := by
  rcases h : getPresignedURL presign k fifteenMinutes with e | u <;>
    simp [mkResult, urlOf, errOf, h]

theorem mkResult_index (presign : String → Nat → Except Err String) (i : Nat) (k : String) :
    (mkResult presign i k).index = i := by
  rw [mkResult_eq]

theorem urlOf_of_errOf_some (presign : String → Nat → Except Err String) (k : String)
    (e : Err) (h : errOf presign k = some e) : urlOf presign k = "" := by
  rcases hps : getPresignedURL presign k fifteenMinutes with e2 | u <;>
    simp [urlOf, errOf, hps] at h ⊢

theorem canon_length (presign : String → Nat → Except Err String) (i : Nat)
    (keys : List String) : (canonResults presign i keys).length = keys.length := by
  induction keys generalizing i with
  | nil => rfl
  | cons k rest ih => simp [canonResults, ih]

theorem canon_map_index (presign : String → Nat → Except Err String) (i : Nat)
    (keys : List String) :
    (canonResults presign i keys).map PResult.index = List.range' i keys.length := by
  induction keys generalizing i with
  | nil => rfl
  | cons k rest ih =>
    simp only [canonResults, List.length_cons, List.range'_succ, List.map_cons,
      mkResult_index, ih]

theorem canon_getElem? (presign : String → Nat → Except Err String)
    (keys : List String) (i j : Nat) (k : String) (hk : keys[j]? = some k) :
    (canonResults presign i keys)[j]? = some (mkResult presign (i + j) k) := by
  induction keys generalizing i j with
  | nil => simp at hk
  | cons k0 rest ih =>
    cases j with
    | zero =>
      simp only [List.getElem?_cons_zero, Option.some.injEq] at hk
      simp [canonResults, hk]
    | succ j0 =>
      simp only [List.getElem?_cons_succ] at hk
      have := ih (i + 1) j0 hk
      simp only [canonResults, List.getElem?_cons_succ, this]
      congr 2
      omega

theorem canon_countP (presign : String → Nat → Except Err String) (i : Nat)
    (keys : List String) :
    (canonResults presign i keys).countP (fun r => r.err.isSome) =
      keys.countP (presignFails presign) := by
  induction keys generalizing i with
  | nil => rfl
  | cons k rest ih =>
    simp only [canonResults, List.countP_cons]
    rw [ih]
    congr 1
    rcases h : getPresignedURL presign k fifteenMinutes with e | u <;>
      simp [mkResult, presignFails, h]

theorem foldl_errorCount (rs : List PResult) (s : CollectState) :
    (rs.foldl collectStep s).errorCount =
      s.errorCount + rs.countP (fun r => r.err.isSome) := by
  induction rs generalizing s with
  | nil => simp
  | cons r rest ih =>
    rw [List.foldl_cons, ih, List.countP_cons]
    rcases h : r.err with _ | e
    · simp [collectStep, h]
    · simp only [collectStep, h]
      simp
      omega

theorem foldl_firstError (rs : List PResult) (s : CollectState) :
    (rs.foldl collectStep s).firstError =
      match s.firstError with
      | some e => some e
      | none => (rs.find? (fun r => r.err.isSome)).bind PResult.err := by
  induction rs generalizing s with
  | nil => cases h : s.firstError <;> simp [h]
  | cons r rest ih =>
    rw [List.foldl_cons, ih]
    rcases hr : r.err with _ | e
    · have hstep : (collectStep s r).firstError = s.firstError := by
        simp [collectStep, hr]
      rw [hstep, List.find?_cons_of_neg _ (by simp [hr])]
    · rw [List.find?_cons_of_pos _ (by simp [hr])]
      cases hs : s.firstError with
      | none =>
        have hstep : (collectStep s r).firstError = some e := by
          simp [collectStep, hr, hs]
        rw [hstep]
        simp [hr]
      | some e0 =>
        have hstep : (collectStep s r).firstError = some e0 := by
          simp [collectStep, hr, hs]
        rw [hstep]

theorem foldl_urls_length (rs : List PResult) (s : CollectState) :
    (rs.foldl collectStep s).urls.length = s.urls.length := by
  induction rs generalizing s with
  | nil => rfl
  | cons r rest ih =>
    rw [List.foldl_cons, ih]
    rcases h : r.err with _ | e <;> simp [collectStep, h]

theorem foldl_urls_untouched (rs : List PResult) (s : CollectState) (j : Nat)
    (h : ∀ r ∈ rs, r.err = none → r.index ≠ j) :
    (rs.foldl collectStep s).urls[j]? = s.urls[j]? := by
  induction rs generalizing s with
  | nil => rfl
  | cons r rest ih =>
    rw [List.foldl_cons,
      ih _ fun x hx => h x (List.mem_cons_of_mem r hx)]
    rcases hr : r.err with _ | e
    · have hne : r.index ≠ j := h r (List.mem_cons_self r rest) hr
      simp [collectStep, hr, List.getElem?_set_ne hne]
    · simp [collectStep, hr]

theorem arrival_urls_of_perm (presign : String → Nat → Except Err String)
    (keys : List String) (arrival : List PResult)
    (hperm : arrival.Perm (canonResults presign 0 keys)) :
    (arrival.foldl collectStep (initState keys.length)).urls =
      keys.map (urlOf presign) := by
  have hnodup : (arrival.map PResult.index).Nodup := by
    have hcanon : ((canonResults presign 0 keys).map PResult.index).Nodup := by
      rw [canon_map_index]
      exact List.nodup_range' 0 keys.length
    exact (hperm.map PResult.index).symm.nodup hcanon
  apply List.ext_getElem?
  intro j
  by_cases hj : j < keys.length
  · obtain ⟨k, hk⟩ : ∃ k, keys[j]? = some k :=
      ⟨keys[j], List.getElem?_eq_getElem hj⟩
    have hcanonj : (canonResults presign 0 keys)[j]? =
        some (mkResult presign j k) := by
      have := canon_getElem? presign keys 0 j k hk
      simpa using this
    have hrc : mkResult presign j k ∈ canonResults presign 0 keys :=
      List.getElem?_mem hcanonj
    have hra : mkResult presign j k ∈ arrival := hperm.mem_iff.mpr hrc
    obtain ⟨l1, l2, harr⟩ := List.append_of_mem hra
    subst harr
    rw [List.map_append, List.map_cons, mkResult_index] at hnodup
    rw [List.nodup_middle, List.nodup_cons, List.mem_append] at hnodup
    have hj1 : ∀ x ∈ l1, x.index ≠ j := by
      intro x hx hxe
      exact hnodup.1 (Or.inl (hxe ▸ List.mem_map_of_mem PResult.index hx))
    have hj2 : ∀ x ∈ l2, x.index ≠ j := by
      intro x hx hxe
      exact hnodup.1 (Or.inr (hxe ▸ List.mem_map_of_mem PResult.index hx))
    rw [List.foldl_append, List.foldl_cons]
    have hs1len : (l1.foldl collectStep (initState keys.length)).urls.length =
        keys.length := by
      rw [foldl_urls_length]
      simp [initState]
    have hs1 : (l1.foldl collectStep (initState keys.length)).urls[j]? = some "" := by
      rw [foldl_urls_untouched l1 _ j fun x hx _ => hj1 x hx]
      simp [initState, hj]
    have hmapj : (keys.map (urlOf presign))[j]? = some (urlOf presign k) := by
      rw [List.getElem?_map, hk]
      rfl
    rcases herr : errOf presign k with _ | e
    · -- the presign for index j succeeded: its record writes position j
      have hre : (mkResult presign j k).err = none := by rw [mkResult_eq, herr]
      have hstep :
          (collectStep (l1.foldl collectStep (initState keys.length))
            (mkResult presign j k)).urls =
          (l1.foldl collectStep (initState keys.length)).urls.set j
            (urlOf presign k) := by
        simp [collectStep, hre, mkResult_eq, herr]
      rw [foldl_urls_untouched l2 _ j fun x hx _ => hj2 x hx, hstep,
        List.getElem?_set_self (by rw [hs1len]; exact hj), hmapj]
    · -- the presign for index j failed: position j keeps the zero value ""
      have hre : (mkResult presign j k).err = some e := by rw [mkResult_eq, herr]
      have hstep :
          (collectStep (l1.foldl collectStep (initState keys.length))
            (mkResult presign j k)).urls =
          (l1.foldl collectStep (initState keys.length)).urls := by
        simp [collectStep, hre]
      rw [foldl_urls_untouched l2 _ j fun x hx _ => hj2 x hx, hstep, hs1, hmapj,
        urlOf_of_errOf_some presign k e herr]
  · have hlen : (arrival.foldl collectStep (initState keys.length)).urls.length =
        keys.length := by
      rw [foldl_urls_length]
      simp [initState]
    rw [List.getElem?_eq_none (by omega :
        (arrival.foldl collectStep (initState keys.length)).urls.length ≤ j),
      List.getElem?_eq_none (by rw [List.length_map]; omega :
        (keys.map (urlOf presign)).length ≤ j)]

theorem arrival_errorCount_of_perm (presign : String → Nat → Except Err String)
    (keys : List String) (arrival : List PResult)
    (hperm : arrival.Perm (canonResults presign 0 keys)) :
    (arrival.foldl collectStep (initState keys.length)).errorCount =
      keys.countP (presignFails presign) := by
  rw [foldl_errorCount, hperm.countP_eq, canon_countP]
  simp [initState]

theorem foldl_firstError_none (rs : List PResult) (s : CollectState)
    (hs : s.firstError = none) :
    (rs.foldl collectStep s).firstError =
      (rs.find? (fun r => r.err.isSome)).bind PResult.err := by
  have h := foldl_firstError rs s
  rw [hs] at h
  exact h

theorem successURLs_spec (presign : String → Nat → Except Err String)
    (keys : List String)
    (hne : keys.all (fun k => presignFails presign k || (urlOf presign k != "")) = true) :
    (keys.map (urlOf presign)).filter (fun u => u != "") = successURLs presign keys ∧
    (successURLs presign keys).length =
      keys.length - keys.countP (presignFails presign) := by
  induction keys with
  | nil => exact ⟨rfl, rfl⟩
  | cons k rest ih =>
    rw [List.all_cons, Bool.and_eq_true] at hne
    obtain ⟨hk, hrest⟩ := hne
    obtain ⟨ih1, ih2⟩ := ih hrest
    rcases hps : getPresignedURL presign k fifteenMinutes with e | u
    · have hfail : presignFails presign k = true := by simp [presignFails, hps]
      have hurl : urlOf presign k = "" := by simp [urlOf, hps]
      have hsucc : successURLs presign (k :: rest) = successURLs presign rest := by
        simp [successURLs, List.filterMap_cons, hps]
      constructor
      · rw [List.map_cons, hurl, List.filter_cons, hsucc]
        simpa using ih1
      · rw [hsucc, ih2, List.countP_cons, hfail]
        simp
    · have hfail : presignFails presign k = false := by simp [presignFails, hps]
      have hurl : urlOf presign k = u := by simp [urlOf, hps]
      have hune : (u != "") = true := by
        rw [hfail] at hk
        simpa [hurl] using hk
      have hsucc : successURLs presign (k :: rest) = u :: successURLs presign rest := by
        simp [successURLs, List.filterMap_cons, hps]
      constructor
      · rw [List.map_cons, hurl, List.filter_cons, hune, hsucc, ih1]
        simp
      · have hle := List.countP_le_length (p := presignFails presign) (l := rest)
        rw [hsucc, List.length_cons, ih2, List.countP_cons, hfail]
        simp
        omega

/- ### Claim C1 -/

/-- Claim C1: with the arrival order any permutation of the
goroutines' records (successful presigned URLs being non-empty
strings), `GetObjects` returns all `M` URLs in listing order when no
presign fails, the `M - N` successful URLs (only) with overall success
when `0 < N < M` fail, and the first encountered per-call error,
wrapped, when all `M` fail. -/
theorem getObjects_failure_policy (presign : String → Nat → Except Err String)
    (keys : List String) (arrival : List PResult)
    (hperm : arrival.Perm (canonResults presign 0 keys))
    (hne : keys.all (fun k => presignFails presign k || (urlOf presign k != "")) = true) :
    (keys.countP (presignFails presign) = 0 →
      getObjects (.ok keys) arrival = .ok (keys.map (urlOf presign)) ∧
      (keys.map (urlOf presign)).length = keys.length) ∧
    (0 < keys.countP (presignFails presign) →
      keys.countP (presignFails presign) < keys.length →
      getObjects (.ok keys) arrival = .ok (successURLs presign keys) ∧
      (successURLs presign keys).length =
        keys.length - keys.countP (presignFails presign)) ∧
    (keys.countP (presignFails presign) = keys.length → 0 < keys.length →
      ∃ r e, arrival.find? (fun x => x.err.isSome) = some r ∧ r.err = some e ∧
        getObjects (.ok keys) arrival =
          .error (Err.wrap "failed to get presigned URLs" e)) := by
  refine ⟨fun hN => ?_, fun hNpos hNlt => ?_, fun hNM hMpos => ?_⟩
  · refine ⟨?_, by simp⟩
    by_cases hM : keys.length = 0
    · have hkeys : keys = [] := List.length_eq_zero.mp hM
      subst hkeys
      rfl
    · simp only [getObjects, if_neg hM]
      rw [arrival_errorCount_of_perm presign keys arrival hperm, hN,
        if_neg (fun hc : (0 : Nat) = keys.length => hM hc.symm),
        if_neg (by omega : ¬(0 : Nat) > 0),
        arrival_urls_of_perm presign keys arrival hperm]
  · have hM : keys.length ≠ 0 := by omega
    have hfm := successURLs_spec presign keys hne
    refine ⟨?_, hfm.2⟩
    simp only [getObjects, if_neg hM]
    rw [arrival_errorCount_of_perm presign keys arrival hperm,
      if_neg (by omega : ¬(keys.countP (presignFails presign) = keys.length)),
      if_pos hNpos,
      arrival_urls_of_perm presign keys arrival hperm, hfm.1]
  · have hM : keys.length ≠ 0 := by omega
    have hcnt : 0 < arrival.countP (fun r => r.err.isSome) := by
      rw [hperm.countP_eq, canon_countP]
      omega
    have hfind : (arrival.find? (fun r => r.err.isSome)).isSome :=
      List.find?_isSome.mpr (by
        obtain ⟨x, hx, hpx⟩ := List.countP_pos_iff.mp hcnt
        exact ⟨x, hx, hpx⟩)
    obtain ⟨r, hr⟩ := Option.isSome_iff_exists.mp hfind
    have hrp : r.err.isSome = true := by
      have := List.find?_some (p := fun x : PResult => x.err.isSome) hr
      simpa using this
    obtain ⟨e, he⟩ := Option.isSome_iff_exists.mp hrp
    refine ⟨r, e, hr, he, ?_⟩
    simp only [getObjects, if_neg hM]
    rw [arrival_errorCount_of_perm presign keys arrival hperm, if_pos hNM,
      foldl_firstError_none arrival _ rfl]
    simp [hr, he]

/-- Witness for C1 (partial-failure branch): two objects, presigning
fails only for `"b"`, records arrive out of order; the result is the
single successful URL with overall success. -/
theorem getObjects_failure_policy_witness :
    getObjects (.ok ["a", "b"])
        [mkResult presignNoB 1 "b", mkResult presignNoB 0 "a"] =
      .ok (successURLs presignNoB ["a", "b"]) ∧
    (successURLs presignNoB ["a", "b"]).length = 2 - 1 := by
  have h := (getObjects_failure_policy presignNoB ["a", "b"]
      [mkResult presignNoB 1 "b", mkResult presignNoB 0 "a"]
      (by decide) (by decide)).2.1 (by decide) (by decide)
  exact h

/- ### Claim C2 -/

/-- Claim C2: for every arrival permutation of the goroutines'
records, each successful URL is written at its original listing index
in the collector's output slice, and (unless every call failed, where
only the reported first error can differ) the overall result equals
the one for listing-order arrival — completion order does not
matter. -/
theorem getObjects_preserves_listing_order (presign : String → Nat → Except Err String)
    (keys : List String) (arrival : List PResult)
    (hperm : arrival.Perm (canonResults presign 0 keys)) :
    (∀ (i : Nat) (k u : String), keys[i]? = some k →
      getPresignedURL presign k fifteenMinutes = .ok u →
      (arrival.foldl collectStep (initState keys.length)).urls[i]? = some u) ∧
    (keys.countP (presignFails presign) < keys.length →
      getObjects (.ok keys) arrival =
        getObjects (.ok keys) (canonResults presign 0 keys)) := by
  constructor
  · intro i k u hk hps
    rw [arrival_urls_of_perm presign keys arrival hperm, List.getElem?_map, hk]
    simp [urlOf, hps]
  · intro hlt
    have hM : keys.length ≠ 0 := by omega
    have hcond : ¬(keys.countP (presignFails presign) = keys.length) := by omega
    simp only [getObjects, if_neg hM]
    rw [arrival_errorCount_of_perm presign keys arrival hperm,
      arrival_errorCount_of_perm presign keys _ (List.Perm.refl _),
      arrival_urls_of_perm presign keys arrival hperm,
      arrival_urls_of_perm presign keys _ (List.Perm.refl _),
      if_neg hcond, if_neg hcond]

/-- Witness for C2: three objects whose records arrive fully reversed;
the URL for `"b"` still lands at index 1 and the result equals the
listing-order run. -/
theorem getObjects_preserves_listing_order_witness :
    (List.foldl collectStep (initState 3)
        [mkResult presignHost 2 "c", mkResult presignHost 1 "b",
          mkResult presignHost 0 "a"]).urls[1]? = some "https://h/b?sig=9" ∧
    getObjects (.ok ["a", "b", "c"])
        [mkResult presignHost 2 "c", mkResult presignHost 1 "b",
          mkResult presignHost 0 "a"] =
      getObjects (.ok ["a", "b", "c"]) (canonResults presignHost 0 ["a", "b", "c"]) := by
  have h := getObjects_preserves_listing_order presignHost ["a", "b", "c"]
    [mkResult presignHost 2 "c", mkResult presignHost 1 "b", mkResult presignHost 0 "a"]
    (by decide)
  exact ⟨h.1 1 "b" "https://h/b?sig=9" rfl rfl, h.2 (by decide)⟩

/- ### Claim C8 -/

/-- Claim C8: when the listing succeeds with zero objects,
`GetObjects` returns the empty list with success, for every arrival
list — in particular independently of any presign outcome, since no
goroutine is launched. -/
theorem getObjects_empty_listing (arrival : List PResult) :
    getObjects (.ok []) arrival = .ok [] := rfl

end GoS3
